import Mathlib

/-!
Shallow embedding of the core simulation of the `logic_farm_roguelike`
repository (`src/main.rs`, `src/pig.rs`).

The game money, pig lifetimes and evasion translations are `f32` in the
source; all values involved (100, 10, 15, 30, 0.01, 12, speeds and
deltas) are handled exactly here with `ℚ`.  The player movement system
uses the irrational constant `FRAC_1_SQRT_2`, so that part of the
embedding works over `ℝ`.

Bevy framework pieces that the code relies on are embedded as follows:
* `bevy::time::Timer` in `TimerMode::Once` (the only mode the code
  constructs): elapsed time, clamped at the duration;
* a `KinematicCharacterController`'s requested translation: an
  `Option (ℚ × ℚ)` field on each pig entity;
* the ECS update schedule: each system becomes a pure function on a
  `GameState`; a tick runs the registered `Update` systems in some
  order (Bevy does not fix the order of a system tuple, so trace-level
  theorems quantify over arbitrary sequences of system steps);
* a `Toi` collision record: only its `normal1` field is read by the
  code, so only that field is modelled;
* a missing `KinematicCharacterControllerOutput` on the player makes
  `bumped_by_player` a no-op; this is the empty collision list here.
-/

namespace LogicFarm

/-- Bevy `Timer` restricted to `TimerMode::Once`, the only mode used by
`pig.rs` (`Timer::from_seconds(30.0, TimerMode::Once)`).  `elapsed` is
clamped at `duration` by `tick`. -/
structure Timer where
  elapsed : ℚ
  duration : ℚ
deriving DecidableEq, Repr

/-- Bevy `Timer::tick` for a `Once` timer: advance `elapsed` by the
delta, clamped at the duration. -/
def Timer.tick (t : Timer) (dt : ℚ) : Timer :=
  { t with elapsed := min (t.elapsed + dt) t.duration }

/-- Bevy `Timer::finished` for a `Once` timer: the elapsed time has
reached the duration. -/
def Timer.finished (t : Timer) : Bool := t.duration ≤ t.elapsed

/-- The `Pig` component of `pig.rs` (lines 21-26): a lifetime timer and
a movement speed. -/
structure Pig where
  lifetime : Timer
  speed : ℚ
deriving DecidableEq, Repr

/-- A spawned pig entity: its ECS entity id, its `Pig` component, its
transform translation, and its `KinematicCharacterController`'s
requested translation. -/
structure PigEntity where
  id : ℕ
  pig : Pig
  position : ℚ × ℚ
  controllerTranslation : Option (ℚ × ℚ)
deriving DecidableEq, Repr

/-- The mutable state the pig systems touch: the `Money` resource
(initialised to `Money(100.0)` in `main.rs`) and the pig population
(children of the `PigParent` entity). -/
structure GameState where
  money : ℚ
  pigs : List PigEntity
deriving DecidableEq, Repr

/-- The pig entity built by `spawn_pig` (`pig.rs` lines 50-79): placed
at the player transform shifted by `+32` on x, `Pig` component with a
30 s one-shot lifetime timer and `speed: 100.0`, and a
`KinematicCharacterController` whose requested translation starts as
`Some(Vec2::new(0.01, 0.0))`. -/
def newPig (playerPos : ℚ × ℚ) (freshId : ℕ) : PigEntity :=
  { id := freshId
    pig := { lifetime := { elapsed := 0, duration := 30 }, speed := 100 }
    position := (playerPos.1 + 32, playerPos.2)
    controllerTranslation := some (1/100, 0) }

/-- The `spawn_pig` system (`pig.rs` lines 35-82).  It returns early
unless the space key was just pressed; then, if `money.0 >= 10.0`, it
deducts 10 and spawns a new pig; otherwise it changes nothing. -/
def spawn_pig (spaceJustPressed : Bool) (playerPos : ℚ × ℚ) (freshId : ℕ)
    (st : GameState) : GameState :=
  if !spaceJustPressed then st
  else if 10 ≤ st.money then
    { money := st.money - 10, pigs := st.pigs ++ [newPig playerPos freshId] }
  else st

/-- Tick the lifetime timer inside a pig entity, as the loop body of
`pig_lifetime` does with `pig.lifetime.tick(time.delta())`. -/
def tickPig (dt : ℚ) (p : PigEntity) : PigEntity :=
  { p with pig := { p.pig with lifetime := p.pig.lifetime.tick dt } }

/-- The `pig_lifetime` system (`pig.rs` lines 177-198): for each pig,
tick its lifetime; if it finished, credit `money.0 += 15.0` and despawn
the pig, otherwise keep it. -/
def pig_lifetime (dt : ℚ) (st : GameState) : GameState :=
  st.pigs.foldl
    (fun acc p =>
      let q := tickPig dt p
      if q.pig.lifetime.finished then { acc with money := acc.money + 15 }
      else { acc with pigs := acc.pigs ++ [q] })
    { money := st.money, pigs := [] }

/-- The part of a rapier `Toi` record that `determine_evasion_translation`
reads: the contact normal `normal1`. -/
structure Toi where
  normal1 : ℚ × ℚ
deriving DecidableEq, Repr

/-- One entry of the player's `KinematicCharacterControllerOutput`
collision list: the touched entity and the `Toi` contact data. -/
structure CharacterCollision where
  entity : ℕ
  toi : Toi
deriving DecidableEq, Repr

/-- `determine_evasion_translation` (`pig.rs` lines 105-124): the
evasion ladder on `toi.normal1` with `movement_factor = 12.0`. -/
def determine_evasion_translation (toi : Toi) (movement_amount : ℚ) :
    Option (ℚ × ℚ) :=
  let movement_factor : ℚ := 12
  let pig_contact := toi.normal1
  if pig_contact.1 < 0 then
    some (movement_factor * movement_amount, movement_factor * movement_amount)
  else if pig_contact.1 > 0 then
    some (-movement_factor * movement_amount, -movement_factor * movement_amount)
  else if pig_contact.2 < 0 then
    some (movement_factor * movement_amount, movement_factor * movement_amount)
  else if pig_contact.2 > 0 then
    some (-movement_factor * movement_amount, -movement_factor * movement_amount)
  else none

/-- Replace the first entity in the list whose id matches `e` by its
image under `f`, as `pigs.iter_mut().find(..)` followed by a mutation
does in `bumped_by_player`. -/
def updateFirstPig (ps : List PigEntity) (e : ℕ) (f : PigEntity → PigEntity) :
    List PigEntity :=
  match ps with
  | [] => []
  | p :: rest => if p.id = e then f p :: rest else p :: updateFirstPig rest e f

/-- The mutation applied to a bumped pig (`pig.rs` lines 96-99):
`pig_controller.translation = determine_evasion_translation(&collision.toi,
pig.speed * time.delta_seconds())`. -/
def evadePig (dt : ℚ) (c : CharacterCollision) (p : PigEntity) : PigEntity :=
  { p with controllerTranslation :=
      determine_evasion_translation c.toi (p.pig.speed * dt) }

/-- The `bumped_by_player` system (`pig.rs` lines 84-103): for each
collision reported for the player this tick, find the pig with that
entity id and overwrite its requested translation.  A player without a
controller output contributes the empty collision list. -/
def bumped_by_player (dt : ℚ) (collisions : List CharacterCollision)
    (st : GameState) : GameState :=
  { st with
    pigs := collisions.foldl
      (fun ps c => updateFirstPig ps c.entity (evadePig dt c)) st.pigs }

/-- One `Update`-schedule system invocation, with the external data it
reads (input edge, player transform, a fresh entity id, the time delta,
the player's collision list).  `playerSystems` stands for
`player_movement`, `player_hit_wall` and `camera_follow` of `main.rs`,
none of which reads or writes `Money` or any pig entity. -/
inductive SysStep where
  | spawnPig (spaceJustPressed : Bool) (playerPos : ℚ × ℚ) (freshId : ℕ)
  | pigLifetime (dt : ℚ)
  | bumpedByPlayer (dt : ℚ) (collisions : List CharacterCollision)
  | playerSystems
deriving Repr

/-- Apply one system invocation to the game state. -/
def applyStep (st : GameState) (step : SysStep) : GameState :=
  match step with
  | .spawnPig sp pos fid => spawn_pig sp pos fid st
  | .pigLifetime dt => pig_lifetime dt st
  | .bumpedByPlayer dt cs => bumped_by_player dt cs st
  | .playerSystems => st

/-- The startup state: `Money(100.0)` inserted in `main.rs`, no pigs. -/
def initialState : GameState := { money := 100, pigs := [] }

/-- Run a sequence of system invocations from the startup state.  Every
reachable execution of the game is such a sequence (Bevy fixes no order
among the registered `Update` systems). -/
def runSteps (steps : List SysStep) : GameState :=
  steps.foldl applyStep initialState

/-- The keyboard snapshot read by `player_movement` in `main.rs`: which
of the four directional keys `W`, `S`, `A`, `D` is held. -/
structure InputState where
  w : Bool
  s : Bool
  a : Bool
  d : Bool
deriving DecidableEq, Repr

/-- The constant `DIAGONAL_MOVEMENT_NORMALIZATION_FACTOR` of `main.rs`,
`std::f32::consts::FRAC_1_SQRT_2`, i.e. the real number `1 / √2`. -/
noncomputable def DIAGONAL_MOVEMENT_NORMALIZATION_FACTOR : ℝ :=
  (Real.sqrt 2)⁻¹

/-- The `target_y_movement` computation of `player_movement` (`main.rs`
lines 176-182): `W` gives `+movement_amount`, else `S` gives
`-movement_amount`, else `0`. -/
def target_y_movement (input : InputState) (movement_amount : ℝ) : ℝ :=
  if input.w then movement_amount
  else if input.s then -movement_amount
  else 0

/-- The `target_x_movement` computation of `player_movement` (`main.rs`
lines 184-190): `D` gives `+movement_amount`, else `A` gives
`-movement_amount`, else `0`. -/
def target_x_movement (input : InputState) (movement_amount : ℝ) : ℝ :=
  if input.d then movement_amount
  else if input.a then -movement_amount
  else 0

/-- `normalize_diagonal_movement` (`main.rs` lines 215-220): when both
components are non-zero, scale both by the diagonal normalization
factor.  Returns the `(y, x)` pair the Rust function mutates in
place. -/
noncomputable def normalize_diagonal_movement (ty tx : ℝ) : ℝ × ℝ :=
  if tx ≠ 0 ∧ ty ≠ 0 then
    (ty * DIAGONAL_MOVEMENT_NORMALIZATION_FACTOR,
     tx * DIAGONAL_MOVEMENT_NORMALIZATION_FACTOR)
  else (ty, tx)

/-- The `player_movement` system (`main.rs` lines 168-195): compute the
axis movements from the input snapshot and `movement_amount =
player.speed * time.delta_seconds()`, normalize diagonals, and submit
`Vec2::new(target_x_movement, target_y_movement)` as the controller's
requested translation. -/
noncomputable def player_movement (input : InputState) (speed dt : ℝ) : ℝ × ℝ :=
  let movement_amount := speed * dt
  let ty := target_y_movement input movement_amount
  let tx := target_x_movement input movement_amount
  let n := normalize_diagonal_movement ty tx
  (n.2, n.1)

/-- Euclidean magnitude of a requested movement vector. -/
noncomputable def vecMagnitude (v : ℝ × ℝ) : ℝ :=
  Real.sqrt (v.1 ^ 2 + v.2 ^ 2)

/-- Sign of a rational number, used to state that the evasion ladder
depends only on the sign pattern of the contact normal. -/
def qsign (q : ℚ) : Int := if q < 0 then -1 else if 0 < q then 1 else 0

/-- Modelled from the spec: the evasion-direction ladder of §4.4.3 as a
function of the contact normal's sign pattern alone — `x < 0` gives
`(+1, +1)`, `x > 0` gives `(−1, −1)`, else `y < 0` gives `(+1, +1)`,
else `y > 0` gives `(−1, −1)`, else no direction. -/
def evasionDirectionSpec (sx sy : Int) : Option (Int × Int) :=
  if sx < 0 then some (1, 1)
  else if sx > 0 then some (-1, -1)
  else if sy < 0 then some (1, 1)
  else if sy > 0 then some (-1, -1)
  else none

/-! ### Helper lemmas -/

/-- Closed form of the `pig_lifetime` fold: starting from accumulated
money `m` and kept pigs `acc`, the fold credits 15 per finished ticked
pig and keeps the unfinished ticked pigs in order. -/
lemma pig_lifetime_foldl (dt : ℚ) (ps : List PigEntity) (m : ℚ)
    (acc : List PigEntity) :
    ps.foldl
      (fun (acc : GameState) (p : PigEntity) =>
        let q := tickPig dt p
        if q.pig.lifetime.finished then { acc with money := acc.money + 15 }
        else { acc with pigs := acc.pigs ++ [q] })
      { money := m, pigs := acc } =
    { money := m + 15 *
        ((((ps.map (tickPig dt)).filter
            (fun q => q.pig.lifetime.finished)).length : ℕ) : ℚ),
      pigs := acc ++ (ps.map (tickPig dt)).filter
        (fun q => !q.pig.lifetime.finished) } := by
  induction ps generalizing m acc with
  | nil => simp
  | cons p rest ih =>
    simp only [List.foldl_cons, List.map_cons, List.filter_cons]
    cases hq : (tickPig dt p).pig.lifetime.finished with
    | false => simp [hq, ih, List.append_assoc]
    | true =>
      simp [hq, ih]
      ring

/-- The `pig_lifetime` system in closed form. -/
lemma pig_lifetime_eq (dt : ℚ) (st : GameState) :
    pig_lifetime dt st =
      { money := st.money + 15 *
          ((((st.pigs.map (tickPig dt)).filter
              (fun q => q.pig.lifetime.finished)).length : ℕ) : ℚ),
        pigs := (st.pigs.map (tickPig dt)).filter
          (fun q => !q.pig.lifetime.finished) } := by
  unfold pig_lifetime
  rw [pig_lifetime_foldl]
  simp

/-- `updateFirstPig` commutes with a projection that the update
preserves. -/
lemma updateFirstPig_map {α : Type} (g : PigEntity → α)
    (f : PigEntity → PigEntity) (hf : ∀ p, g (f p) = g p)
    (ps : List PigEntity) (e : ℕ) :
    (updateFirstPig ps e f).map g = ps.map g := by
  induction ps with
  | nil => rfl
  | cons p rest ih =>
    unfold updateFirstPig
    by_cases h : p.id = e <;> simp [h, hf, ih]

/-- `updateFirstPig` at entity `e` leaves the pigs with another id
untouched, provided the update preserves ids. -/
lemma updateFirstPig_filter_ne (f : PigEntity → PigEntity)
    (hf : ∀ p, (f p).id = p.id) (ps : List PigEntity) (e e' : ℕ)
    (he : e' ≠ e) :
    (updateFirstPig ps e f).filter (fun p => p.id == e') =
      ps.filter (fun p => p.id == e') := by
  induction ps with
  | nil => rfl
  | cons p rest ih =>
    have hne : e ≠ e' := fun hc => he hc.symm
    unfold updateFirstPig
    by_cases h : p.id = e
    · rw [if_pos h, List.filter_cons, List.filter_cons]
      have h1 : ((f p).id == e') = false := by
        rw [hf, h]
        simpa using hne
      have h2 : (p.id == e') = false := by
        rw [h]
        simpa using hne
      rw [h1, h2]
      simp
    · rw [if_neg h, List.filter_cons, List.filter_cons, ih]

/-- The evasion mutation keeps everything but the requested
translation. -/
lemma evadePig_id (dt : ℚ) (c : CharacterCollision) (p : PigEntity) :
    (evadePig dt c p).id = p.id := rfl

/-- The fold of `bumped_by_player` commutes with any projection that
ignores the requested translation. -/
lemma bump_foldl_map {α : Type} (dt : ℚ) (cs : List CharacterCollision)
    (ps : List PigEntity) (g : PigEntity → α)
    (hg : ∀ c p, g (evadePig dt c p) = g p) :
    (cs.foldl (fun l c => updateFirstPig l c.entity (evadePig dt c)) ps).map g
      = ps.map g := by
  induction cs generalizing ps with
  | nil => rfl
  | cons c rest ih =>
    rw [List.foldl_cons, ih, updateFirstPig_map g _ (hg c)]

/-- The fold of `bumped_by_player` leaves pigs whose entity id is not
in the collision list completely unchanged. -/
lemma bump_foldl_filter (dt : ℚ) (cs : List CharacterCollision)
    (ps : List PigEntity) (e : ℕ)
    (he : e ∉ cs.map (fun c => c.entity)) :
    (cs.foldl (fun l c => updateFirstPig l c.entity (evadePig dt c))
        ps).filter (fun p => p.id == e) =
      ps.filter (fun p => p.id == e) := by
  induction cs generalizing ps with
  | nil => rfl
  | cons c rest ih =>
    simp only [List.map_cons, List.mem_cons, not_or] at he
    rw [List.foldl_cons,
      ih (updateFirstPig ps c.entity (evadePig dt c)) he.2,
      updateFirstPig_filter_ne _ (evadePig_id dt c) ps c.entity e he.1]

/-- Case analysis of the money delta of a single system invocation:
unchanged, or minus 10 with at least 10 available, or plus 15 per
expired pig. -/
lemma money_step_cases (st : GameState) (step : SysStep) :
    (applyStep st step).money = st.money ∨
    ((applyStep st step).money = st.money - 10 ∧ 10 ≤ st.money) ∨
    (∃ k : ℕ, 0 < k ∧ (applyStep st step).money = st.money + 15 * (k : ℚ)) := by
  cases step with
  | spawnPig sp pos fid =>
    cases sp with
    | false => exact Or.inl rfl
    | true =>
      by_cases h : 10 ≤ st.money
      · exact Or.inr (Or.inl ⟨by simp [applyStep, spawn_pig, h], h⟩)
      · exact Or.inl (by simp [applyStep, spawn_pig, h])
  | pigLifetime dt =>
    have h := pig_lifetime_eq dt st
    rcases Nat.eq_zero_or_pos
        (((st.pigs.map (tickPig dt)).filter
          (fun q => q.pig.lifetime.finished)).length) with hk | hk
    · exact Or.inl (by simp [applyStep, h, hk])
    · exact Or.inr (Or.inr ⟨_, hk, by simp [applyStep, h]⟩)
  | bumpedByPlayer dt cs => exact Or.inl rfl
  | playerSystems => exact Or.inl rfl

/-- Running any sequence of system invocations from a state with
non-negative money keeps money non-negative. -/
lemma money_steps_nonneg (steps : List SysStep) (st : GameState)
    (h : 0 ≤ st.money) : 0 ≤ (steps.foldl applyStep st).money := by
  induction steps generalizing st with
  | nil => simpa
  | cons s rest ih =>
    rw [List.foldl_cons]
    apply ih
    rcases money_step_cases st s with h1 | ⟨h2, h10⟩ | ⟨k, hk, h15⟩
    · rw [h1]; exact h
    · rw [h2]; linarith
    · rw [h15]
      have : (0 : ℚ) ≤ (k : ℚ) := Nat.cast_nonneg k
      linarith

/-! ### Claim theorems -/

/-- C1.  The Money balance starts at 100; every single system
invocation either leaves it unchanged, subtracts exactly 10 (a
successful pig spawn, possible only with at least 10 available), or
adds exactly 15 per pig expiring in that invocation; and along every
reachable execution (any sequence of system invocations from startup)
it is never negative. -/
theorem money_balance_invariant :
    initialState.money = 100 ∧
    (∀ (st : GameState) (step : SysStep),
      (applyStep st step).money = st.money ∨
      ((applyStep st step).money = st.money - 10 ∧ 10 ≤ st.money) ∨
      (∃ k : ℕ, 0 < k ∧ (applyStep st step).money = st.money + 15 * (k : ℚ))) ∧
    (∀ steps : List SysStep, 0 ≤ (runSteps steps).money) :=
  ⟨rfl, money_step_cases,
    fun steps => money_steps_nonneg steps initialState (by norm_num [initialState])⟩

/-- C2.  With the spawn key just pressed, the spend succeeds exactly
when the balance is at least 10: then the balance drops by 10 and one
new pig is appended; otherwise the state (balance and pig population)
is returned exactly as it was — the only signal of failure is the
untaken branch. -/
theorem spawn_pig_spend (pos : ℚ × ℚ) (fid : ℕ) (st : GameState) :
    spawn_pig true pos fid st =
      if 10 ≤ st.money then
        { money := st.money - 10, pigs := st.pigs ++ [newPig pos fid] }
      else st := by
  unfold spawn_pig
  simp

/-- C3 counterexample.  The pig created by a successful spawn has
movement speed 100, not the claimed 25 units/s. -/
theorem spawn_pig_speed_counterexample :
    ((spawn_pig true (0, 0) 0 { money := 100, pigs := [] }).pigs.map
      (fun p => p.pig.speed)) = [100] ∧ (100 : ℚ) ≠ 25 := by
  constructor
  · norm_num [spawn_pig, newPig]
  · norm_num

/-- C3 amended.  On every successful spawn the created pig is placed at
`player.position + (32, 0)`, its lifetime timer is a one-shot 30-second
countdown starting at 0 elapsed, and its movement speed is 100
units/s. -/
theorem spawn_pig_success_fields (pos : ℚ × ℚ) (fid : ℕ) (st : GameState)
    (h : 10 ≤ st.money) :
    spawn_pig true pos fid st =
      { money := st.money - 10, pigs := st.pigs ++ [newPig pos fid] } ∧
    (newPig pos fid).position = (pos.1 + 32, pos.2) ∧
    (newPig pos fid).pig.lifetime = { elapsed := 0, duration := 30 } ∧
    (newPig pos fid).pig.speed = 100 := by
  refine ⟨?_, rfl, rfl, rfl⟩
  unfold spawn_pig
  simp [h]

/-- Witness for the amended C3 at the startup balance. -/
theorem spawn_pig_success_fields_witness :
    (10 : ℚ) ≤ initialState.money ∧
    (spawn_pig true (0, 0) 0 initialState =
      { money := initialState.money - 10,
        pigs := initialState.pigs ++ [newPig (0, 0) 0] } ∧
    (newPig (0, 0) 0).position = ((0 : ℚ) + 32, (0 : ℚ)) ∧
    (newPig (0, 0) 0).pig.lifetime = { elapsed := 0, duration := 30 } ∧
    (newPig (0, 0) 0).pig.speed = 100) :=
  ⟨by norm_num [initialState],
    spawn_pig_success_fields (0, 0) 0 initialState (by norm_num [initialState])⟩

/-- C4.  Each tick advances every pig's lifetime countdown by the time
delta (clamped at the 30 s duration); in the invocation in which a
pig's countdown completes, the Economy is credited exactly 15 for it
and it is removed from the population — so a pig is credited at most
once, since it is gone from every later state; and evasion events never
touch any lifetime timer. -/
theorem pig_lifetime_expiry (dt : ℚ) (st : GameState) (dt2 : ℚ)
    (cs : List CharacterCollision) :
    (∀ p : PigEntity, (tickPig dt p).pig.lifetime.elapsed =
      min (p.pig.lifetime.elapsed + dt) p.pig.lifetime.duration) ∧
    (pig_lifetime dt st).money = st.money + 15 *
      ((((st.pigs.map (tickPig dt)).filter
          (fun q => q.pig.lifetime.finished)).length : ℕ) : ℚ) ∧
    (pig_lifetime dt st).pigs = (st.pigs.map (tickPig dt)).filter
      (fun q => !q.pig.lifetime.finished) ∧
    (bumped_by_player dt2 cs st).pigs.map (fun p => p.pig.lifetime) =
      st.pigs.map (fun p => p.pig.lifetime) := by
  refine ⟨fun p => rfl, ?_, ?_, ?_⟩
  · rw [pig_lifetime_eq]
  · rw [pig_lifetime_eq]
  · exact bump_foldl_map dt2 cs st.pigs _ (fun c p => rfl)

/-- C5.  The evasion translation is a pure deterministic function of
the sign pattern of the contact normal: it equals the spec's ladder
evaluated on the two signs, with the resulting unit direction scaled by
`12 * movement_amount`; in particular a normal that is exactly zero on
both axes yields `none` — no direction, no crash (the function is
total). -/
theorem evasion_ladder_sign_determined (t : Toi) (m : ℚ) :
    determine_evasion_translation t m =
      Option.map (fun dir => ((dir.1 : ℚ) * (12 * m), (dir.2 : ℚ) * (12 * m)))
        (evasionDirectionSpec (qsign t.normal1.1) (qsign t.normal1.2)) := by
  unfold determine_evasion_translation evasionDirectionSpec qsign
  rcases lt_trichotomy t.normal1.1 0 with h1 | h1 | h1
  · simp [h1]
  · rcases lt_trichotomy t.normal1.2 0 with h2 | h2 | h2
    · simp [h1, h2]
    · simp [h1, h2]
    · simp [h1, h2, lt_asymm h2]
  · simp [h1, lt_asymm h1]

/-- The evasion function with its local `let` bindings inlined. -/
lemma determine_evasion_translation_eq (t : Toi) (m : ℚ) :
    determine_evasion_translation t m =
      if t.normal1.1 < 0 then some (12 * m, 12 * m)
      else if t.normal1.1 > 0 then some (-12 * m, -12 * m)
      else if t.normal1.2 < 0 then some (12 * m, 12 * m)
      else if t.normal1.2 > 0 then some (-12 * m, -12 * m)
      else none := rfl

/-- C6 counterexample.  With contact normal `(−1, 0)` and movement
amount 1 the evasion translation is `(12, 12)`: the evasion-speed
multiplier applied to `movement_speed * dt` is 12, not the claimed
6. -/
theorem evasion_multiplier_counterexample :
    determine_evasion_translation ⟨(-1, 0)⟩ 1 = some (12, 12) ∧
    (12 : ℚ) ≠ 6 * 1 := by
  constructor
  · norm_num [determine_evasion_translation]
  · norm_num

/-- C6 amended.  Whenever an evasion direction change occurs, each
component of the vector assigned to the pig has magnitude exactly
`12 * movement_speed * dt` — the fixed `movement_factor` of the source
is 12, not 6. -/
theorem evasion_components_magnitude (t : Toi) (speed dt : ℚ)
    (h : 0 ≤ speed * dt) (v : ℚ × ℚ)
    (hv : determine_evasion_translation t (speed * dt) = some v) :
    |v.1| = 12 * (speed * dt) ∧ |v.2| = 12 * (speed * dt) := by
  have h12 : (0 : ℚ) ≤ 12 * (speed * dt) := by linarith
  have hneg : -12 * (speed * dt) = -(12 * (speed * dt)) := by ring
  rw [determine_evasion_translation_eq] at hv
  split_ifs at hv <;>
    simp only [Option.some.injEq] at hv <;>
    rw [← hv] <;>
    constructor <;>
    simp only [hneg, abs_neg] <;>
    exact abs_of_nonneg h12

/-- Witness for the amended C6 at contact normal `(−1, 0)`, unit speed
and unit delta. -/
theorem evasion_components_magnitude_witness :
    (0 : ℚ) ≤ 1 * 1 ∧
    determine_evasion_translation ⟨(-1, 0)⟩ (1 * 1) = some (12, 12) ∧
    |((12 : ℚ), (12 : ℚ)).1| = 12 * (1 * 1) ∧
    |((12 : ℚ), (12 : ℚ)).2| = 12 * (1 * 1) := by
  have hv : determine_evasion_translation ⟨(-1, 0)⟩ (1 * 1) = some (12, 12) := by
    norm_num [determine_evasion_translation]
  have h := evasion_components_magnitude ⟨(-1, 0)⟩ 1 1 (by norm_num) (12, 12) hv
  exact ⟨by norm_num, hv, h.1, h.2⟩

/-- C7 counterexample.  A pig spawns with requested translation
`(0.01, 0)`, and a full one-second lifetime tick leaves that request
untouched: the submitted vector has squared magnitude `0.01² ≠
(speed * dt)² = (100 * 1)²`, so no wander request
`direction * movement_speed * dt` with a unit direction is ever
submitted — there is no direction-change timer in the code. -/
theorem no_wander_counterexample :
    ((applyStep { money := 90, pigs := [newPig (0, 0) 0] }
        (.pigLifetime 1)).pigs.map (fun p => p.controllerTranslation)) =
      [some (1/100, 0)] ∧
    ((1 : ℚ)/100) ^ 2 + 0 ^ 2 ≠ (100 * 1) ^ 2 := by
  constructor
  · norm_num [applyStep, pig_lifetime, tickPig, Timer.tick, Timer.finished,
      newPig]
  · norm_num

/-- C7 amended.  The code has no wander behaviour: the lifetime tick
never touches a pig's requested translation, a full tick without spawn
input and without collisions changes the pig population only by ticking
lifetimes and dropping the expired pigs (every survivor, its requested
translation included, is exactly its lifetime-ticked old self), and a
pig's requested translation starts at `(0.01, 0)`. -/
theorem no_wander_tick (dt : ℚ) (st : GameState) (pos : ℚ × ℚ) (fid : ℕ)
    (dt2 : ℚ) :
    (∀ p : PigEntity,
      (tickPig dt p).controllerTranslation = p.controllerTranslation) ∧
    (applyStep (applyStep (applyStep st (.spawnPig false pos fid))
        (.pigLifetime dt)) (.bumpedByPlayer dt2 [])).pigs =
      (st.pigs.map (tickPig dt)).filter (fun q => !q.pig.lifetime.finished) ∧
    (newPig pos fid).controllerTranslation = some (1/100, 0) := by
  refine ⟨fun p => rfl, ?_, rfl⟩
  show (bumped_by_player dt2 []
      (pig_lifetime dt (spawn_pig false pos fid st))).pigs = _
  rw [show spawn_pig false pos fid st = st from rfl]
  unfold bumped_by_player
  rw [pig_lifetime_eq]
  simp

/-- C10.  The evasion handler leaves the Money balance unchanged,
changes no pig's id, lifetime timer, speed or position, and leaves
every pig whose entity id is not in the player's collision list — in
particular its requested translation — completely unchanged. -/
theorem bumped_by_player_frame_effect (dt : ℚ)
    (cs : List CharacterCollision) (st : GameState) :
    (bumped_by_player dt cs st).money = st.money ∧
    (bumped_by_player dt cs st).pigs.map (fun p => (p.id, p.pig, p.position)) =
      st.pigs.map (fun p => (p.id, p.pig, p.position)) ∧
    ∀ e : ℕ, e ∉ cs.map (fun c => c.entity) →
      (bumped_by_player dt cs st).pigs.filter (fun p => p.id == e) =
        st.pigs.filter (fun p => p.id == e) := by
  refine ⟨rfl, ?_, fun e he => ?_⟩
  · exact bump_foldl_map dt cs st.pigs _ (fun c p => rfl)
  · exact bump_foldl_filter dt cs st.pigs e he

/-- Witness for C10: with one collision against pig 0, pig 1 is left
untouched. -/
theorem bumped_by_player_frame_effect_witness :
    (1 : ℕ) ∉ ([⟨0, ⟨(-1, 0)⟩⟩] : List CharacterCollision).map
      (fun c => c.entity) ∧
    (bumped_by_player 1 [⟨0, ⟨(-1, 0)⟩⟩]
        { money := 50, pigs := [newPig (0, 0) 0, newPig (5, 5) 1] }).pigs.filter
        (fun p => p.id == 1) =
      ({ money := 50,
         pigs := [newPig (0, 0) 0, newPig (5, 5) 1] } : GameState).pigs.filter
        (fun p => p.id == 1) := by
  have hm : (1 : ℕ) ∉ ([⟨0, ⟨(-1, 0)⟩⟩] : List CharacterCollision).map
      (fun c => c.entity) := by simp
  exact ⟨hm,
    (bumped_by_player_frame_effect 1 [⟨0, ⟨(-1, 0)⟩⟩]
      { money := 50, pigs := [newPig (0, 0) 0, newPig (5, 5) 1] }).2.2 1 hm⟩

/-- C8 counterexample.  With both `W` and `S` held (and speed 100,
delta 1 s) the y-axis raw signal is `+movement_amount = 100`, not 0,
and the submitted player vector is `(0, 100)`: the `W` branch wins, the
axis does not cancel. -/
theorem opposing_keys_counterexample :
    target_y_movement { w := true, s := true, a := false, d := false }
      (100 * 1) = 100 * 1 ∧
    player_movement { w := true, s := true, a := false, d := false } 100 1 =
      (0, 100) ∧
    (100 * 1 : ℝ) ≠ 0 := by
  refine ⟨rfl, ?_, by norm_num⟩
  unfold player_movement normalize_diagonal_movement
    target_x_movement target_y_movement
  norm_num

/-- C8 amended.  When both keys of an opposing directional pair are
held, the first-checked branch wins: `W` over `S` gives
`+movement_amount` on the y axis, `D` over `A` gives
`+movement_amount` on the x axis — the axis signal is not 0. -/
theorem opposing_keys_positive_wins (m : ℝ) (aHeld dHeld wHeld sHeld : Bool) :
    target_y_movement { w := true, s := true, a := aHeld, d := dHeld } m = m ∧
    target_x_movement { w := wHeld, s := sHeld, a := true, d := true } m = m :=
  ⟨rfl, rfl⟩

/-- The submitted player vector in explicit branch form. -/
lemma player_movement_eq (i : InputState) (speed dt : ℝ) :
    player_movement i speed dt =
      if target_x_movement i (speed * dt) ≠ 0 ∧
          target_y_movement i (speed * dt) ≠ 0 then
        (target_x_movement i (speed * dt) * DIAGONAL_MOVEMENT_NORMALIZATION_FACTOR,
         target_y_movement i (speed * dt) * DIAGONAL_MOVEMENT_NORMALIZATION_FACTOR)
      else (target_x_movement i (speed * dt), target_y_movement i (speed * dt)) := by
  unfold player_movement normalize_diagonal_movement
  by_cases h : target_x_movement i (speed * dt) ≠ 0 ∧
      target_y_movement i (speed * dt) ≠ 0 <;>
    simp [h]

/-- A non-zero x-axis signal squares to `movement_amount²`. -/
lemma target_x_movement_sq (i : InputState) (m : ℝ)
    (h : target_x_movement i m ≠ 0) : target_x_movement i m ^ 2 = m ^ 2 := by
  unfold target_x_movement at *
  cases hd : i.d <;> cases ha : i.a <;> simp_all [neg_sq]

/-- A non-zero y-axis signal squares to `movement_amount²`. -/
lemma target_y_movement_sq (i : InputState) (m : ℝ)
    (h : target_y_movement i m ≠ 0) : target_y_movement i m ^ 2 = m ^ 2 := by
  unfold target_y_movement at *
  cases hw : i.w <;> cases hs : i.s <;> simp_all [neg_sq]

/-- The square of `1/√2` is `1/2`. -/
lemma diagonal_factor_sq :
    DIAGONAL_MOVEMENT_NORMALIZATION_FACTOR ^ 2 = 1 / 2 := by
  unfold DIAGONAL_MOVEMENT_NORMALIZATION_FACTOR
  rw [inv_pow, Real.sq_sqrt] <;> norm_num

/-- C9.  For every speed and delta, the magnitude of the player's
requested movement vector under a diagonal input (both axes active)
equals its magnitude under a single-axis input: both are
`√((speed*dt)²)`, thanks to the `1/√2` scaling of both components in
the diagonal case. -/
theorem diagonal_magnitude_eq (i j : InputState) (speed dt : ℝ)
    (hix : target_x_movement i (speed * dt) ≠ 0)
    (hiy : target_y_movement i (speed * dt) ≠ 0)
    (hj : (target_x_movement j (speed * dt) ≠ 0 ∧
            target_y_movement j (speed * dt) = 0) ∨
          (target_x_movement j (speed * dt) = 0 ∧
            target_y_movement j (speed * dt) ≠ 0)) :
    vecMagnitude (player_movement i speed dt) =
      vecMagnitude (player_movement j speed dt) := by
  have hi : vecMagnitude (player_movement i speed dt) =
      Real.sqrt ((speed * dt) ^ 2) := by
    rw [player_movement_eq, if_pos ⟨hix, hiy⟩]
    unfold vecMagnitude
    congr 1
    rw [mul_pow, mul_pow, target_x_movement_sq i _ hix,
      target_y_movement_sq i _ hiy, diagonal_factor_sq]
    ring
  have hjm : vecMagnitude (player_movement j speed dt) =
      Real.sqrt ((speed * dt) ^ 2) := by
    rcases hj with ⟨hjx, hjy⟩ | ⟨hjx, hjy⟩
    · rw [player_movement_eq, if_neg (by simp [hjy])]
      unfold vecMagnitude
      congr 1
      rw [hjy, target_x_movement_sq j _ hjx]
      ring
    · rw [player_movement_eq, if_neg (by simp [hjx])]
      unfold vecMagnitude
      congr 1
      rw [hjx, target_y_movement_sq j _ hjy]
      ring
  rw [hi, hjm]

/-- Witness for C9: holding `W`+`D` gives the same magnitude as holding
`D` alone, at unit speed and delta. -/
theorem diagonal_magnitude_eq_witness :
    target_x_movement { w := true, s := false, a := false, d := true }
      (1 * 1) ≠ 0 ∧
    target_y_movement { w := true, s := false, a := false, d := true }
      (1 * 1) ≠ 0 ∧
    ((target_x_movement { w := false, s := false, a := false, d := true }
        (1 * 1) ≠ 0 ∧
      target_y_movement { w := false, s := false, a := false, d := true }
        (1 * 1) = 0) ∨
     (target_x_movement { w := false, s := false, a := false, d := true }
        (1 * 1) = 0 ∧
      target_y_movement { w := false, s := false, a := false, d := true }
        (1 * 1) ≠ 0)) ∧
    vecMagnitude (player_movement
        { w := true, s := false, a := false, d := true } 1 1) =
      vecMagnitude (player_movement
        { w := false, s := false, a := false, d := true } 1 1) := by
  have hx : target_x_movement { w := true, s := false, a := false, d := true }
      (1 * 1) ≠ 0 := by
    unfold target_x_movement
    norm_num
  have hy : target_y_movement { w := true, s := false, a := false, d := true }
      (1 * 1) ≠ 0 := by
    unfold target_y_movement
    norm_num
  have hj : (target_x_movement { w := false, s := false, a := false, d := true }
        (1 * 1) ≠ 0 ∧
      target_y_movement { w := false, s := false, a := false, d := true }
        (1 * 1) = 0) ∨
      (target_x_movement { w := false, s := false, a := false, d := true }
        (1 * 1) = 0 ∧
      target_y_movement { w := false, s := false, a := false, d := true }
        (1 * 1) ≠ 0) := by
    left
    unfold target_x_movement target_y_movement
    norm_num
  exact ⟨hx, hy, hj, diagonal_magnitude_eq _ _ 1 1 hx hy hj⟩

end LogicFarm
